import Mathlib

/-!
Verification of the deterministic card-selection algorithm and the staged
LLM interpretation session of the personal tarot bot.

The embedding follows the Python sources:
  * `src/card_manager.py` — `TarotDeck`, `select_cards`;
  * Python's `random` module (CPython `_randommodule.c` / `random.py`),
    which `select_cards` drives: MT19937 seeding (`init_genrand`,
    `init_by_array`), `genrand_uint32`, `getrandbits`,
    `_randbelow_with_getrandbits`, and `Random.sample`;
  * `src/openrouter_client.py` — `MessageContext`, `send_request`;
  * `src/llm_session.py` — the staged interpretation session.

Machine integers are modelled as `Nat` with explicit `&&& 0xffffffff`
masking where CPython uses `uint32_t` arithmetic.  The two rejection
loops of CPython's `random` (`_randbelow`'s retry loop and `sample`'s
set-path retry loop) terminate only almost surely, so they are modelled
with an explicit fuel parameter; running out of fuel is a distinguished
outcome (`outOfFuel`) that corresponds to no behaviour of the Python
code (the Python loops simply keep drawing).
-/

namespace Tarot

/-! ## Mersenne-Twister (CPython `_randommodule.c`) -/

/-- Mask selecting the low 32 bits, CPython's `uint32_t` truncation. -/
def mask32 : Nat := 0xffffffff

/-- MT19937 generator state: 624 32-bit words plus the output index.
CPython stores the same pair (`mt`, `index`). -/
structure MTState where
  mt : Array Nat
  mti : Nat
deriving Repr, DecidableEq

/-- CPython `init_genrand`: fill the 624-word state from a 32-bit seed,
`mt[i] = (1812433253 * (mt[i-1] ^ (mt[i-1] >> 30)) + i) mod 2^32`. -/
def initGenrand (s : Nat) : Array Nat :=
  (List.range 623).foldl
    (fun a _ =>
      let prev := a.getD (a.size - 1) 0
      a.push ((1812433253 * (prev ^^^ (prev >>> 30)) + a.size) &&& mask32))
    #[s &&& mask32]

/-- First mixing loop of CPython `init_by_array`; `k` counts remaining
iterations, `i` and `j` are the running state and key indices (both are
threaded across the two loops exactly as in the C code). -/
def ibaLoop1 (key : Array Nat) : Nat → Array Nat → Nat → Nat → Array Nat × Nat
  | 0, mt, i, _ => (mt, i)
  | k+1, mt, i, j =>
    let prev := mt.getD (i - 1) 0
    let m := ((prev ^^^ (prev >>> 30)) * 1664525) &&& mask32
    let v := ((mt.getD i 0 ^^^ m) + key.getD j 0 + j) &&& mask32
    let mt1 := mt.set! i v
    let i1 := i + 1
    let p := if 624 ≤ i1 then (mt1.set! 0 (mt1.getD 623 0), 1) else (mt1, i1)
    let j1 := if key.size ≤ j + 1 then 0 else j + 1
    ibaLoop1 key k p.1 p.2 j1

/-- Second mixing loop of CPython `init_by_array`; the `- i` of the C
code is 32-bit wraparound subtraction, written `+ 2^32 - i` on `Nat`. -/
def ibaLoop2 : Nat → Array Nat → Nat → Array Nat
  | 0, mt, _ => mt
  | k+1, mt, i =>
    let prev := mt.getD (i - 1) 0
    let m := ((prev ^^^ (prev >>> 30)) * 1566083941) &&& mask32
    let v := ((mt.getD i 0 ^^^ m) + 2 ^ 32 - (i &&& mask32)) &&& mask32
    let mt1 := mt.set! i v
    let i1 := i + 1
    let p := if 624 ≤ i1 then (mt1.set! 0 (mt1.getD 623 0), 1) else (mt1, i1)
    ibaLoop2 k p.1 p.2

/-- CPython `init_by_array`: seed with `init_genrand 19650218`, run the
two mixing loops over the key, then pin `mt[0] = 0x80000000`. -/
def initByArray (key : Array Nat) : Array Nat :=
  let mt0 := initGenrand 19650218
  let kmax := max 624 key.size
  let p := ibaLoop1 key kmax mt0 1 0
  let mt1 := ibaLoop2 623 p.1 p.2
  mt1.set! 0 0x80000000

/-- Little-endian 32-bit words of a natural number (CPython
`random_seed` serializes `abs(n)` this way before `init_by_array`). -/
def natKeyWords (n : Nat) : List Nat :=
  if h : n = 0 then [] else (n &&& mask32) :: natKeyWords (n >>> 32)
termination_by n
decreasing_by
  simp only [Nat.shiftRight_eq_div_pow]
  exact Nat.div_lt_self (Nat.pos_of_ne_zero h) (by norm_num)

/-- Seed key of CPython `random_seed`: the 32-bit words of `abs(n)`,
with the single word `0` for `n = 0`. -/
def intKey (n : Nat) : Array Nat :=
  if n = 0 then #[0] else (natKeyWords n).toArray

/-- `random.seed(z)` for an integer argument: key the generator with the
words of `abs(z)` and set the output index to 624 so that the first draw
triggers a twist, as CPython does. -/
def seedMT (z : Int) : MTState :=
  ⟨initByArray (intKey z.natAbs), 624⟩

/-- One cell update of the MT19937 twist.  The fold applies the updates
in index order, so cells read at `kk + 397 mod 624` (and `mt[0]` in the
last step) see already-updated values exactly as in the C loops. -/
def twistStep (mt : Array Nat) (kk : Nat) : Array Nat :=
  let y := (mt.getD kk 0 &&& 0x80000000) ||| (mt.getD ((kk + 1) % 624) 0 &&& 0x7fffffff)
  let mag := if y &&& 1 = 1 then 0x9908b0df else 0
  mt.set! kk (mt.getD ((kk + 397) % 624) 0 ^^^ (y >>> 1) ^^^ mag)

/-- Full MT19937 twist of the 624-word state. -/
def twist (mt : Array Nat) : Array Nat :=
  (List.range 624).foldl twistStep mt

/-- MT19937 output tempering. -/
def temper (y : Nat) : Nat :=
  let y1 := y ^^^ (y >>> 11)
  let y2 := y1 ^^^ ((y1 <<< 7) &&& 0x9d2c5680)
  let y3 := y2 ^^^ ((y2 <<< 15) &&& 0xefc60000)
  y3 ^^^ (y3 >>> 18)

/-- CPython `genrand_uint32`: twist when the index is exhausted, then
temper and emit the next word. -/
def genrandUint32 (s : MTState) : Nat × MTState :=
  let st := if 624 ≤ s.mti then MTState.mk (twist s.mt) 0 else s
  (temper (st.mt.getD st.mti 0), ⟨st.mt, st.mti + 1⟩)

/-- CPython `getrandbits` for `k` bits, one 32-bit word at a time,
little-endian, with the last word truncated; the first argument is the
word count `(k + 31) / 32`. -/
def getrandbitsAux : Nat → MTState → Nat → Nat × MTState
  | 0, s, _ => (0, s)
  | w+1, s, k =>
    let p := genrandUint32 s
    if k ≤ 32 then (p.1 >>> (32 - k), p.2)
    else
      let q := getrandbitsAux w p.2 (k - 32)
      (p.1 ||| (q.1 <<< 32), q.2)

/-- `random.getrandbits(k)`. -/
def getrandbits (s : MTState) (k : Nat) : Nat × MTState :=
  getrandbitsAux ((k + 31) / 32) s k

/-- Python `int.bit_length`. -/
def pyBitLength (n : Nat) : Nat :=
  if n = 0 then 0 else Nat.log2 n + 1

/-- The rejection loop of `Random._randbelow_with_getrandbits`:
draw `k`-bit numbers until one is `< n`.  The Python loop terminates
only almost surely; fuel bounds the number of draws modelled. -/
def randbelowLoop (n k : Nat) : Nat → MTState → Option (Nat × MTState)
  | 0, _ => none
  | fuel+1, s =>
    let p := getrandbits s k
    if p.1 < n then some (p.1, p.2) else randbelowLoop n k fuel p.2

/-- `Random._randbelow_with_getrandbits(n)`: `0` outright for `n = 0`,
otherwise rejection sampling on `n.bit_length()` bits. -/
def randbelow (fuel n : Nat) (s : MTState) : Option (Nat × MTState) :=
  if n = 0 then some (0, s) else randbelowLoop n (pyBitLength n) fuel s

/-! ## Cards, deck and `select_cards` (`src/card_manager.py`) -/

/-- A tarot card record with the fields `_load_cards` requires of every
catalog entry (`name`, `number`, `arcana`, `suit`, `img`). -/
structure Card where
  name : String
  number : Nat
  arcana : String
  suit : String
  img : String
deriving Repr, DecidableEq, Inhabited

/-- `TarotDeck` after a successful `_load_cards`: the loaded card list.
The `cards` property returns a defensive copy, which is the identity in
this pure model. -/
structure TarotDeck where
  cards : List Card
deriving Repr, DecidableEq

/-- `TarotDeck.get_cards_count`. -/
def TarotDeck.get_cards_count (d : TarotDeck) : Nat :=
  d.cards.length

/-- Exact ceiling of the base-4 logarithm, the value of
`_ceil(_log(k * 3, 4))` in `Random.sample`.  CPython computes it with
double-precision floats; for every argument `3 * k` reachable there the
float result equals this exact value (`3 * k` is never a power of 4 and
the double error is far below the distance to the nearest integer). -/
def ceilLog4 (x : Nat) : Nat :=
  Nat.log 4 (x - 1) + 1

/-- Pool path of `Random.sample` (taken when `n <= setsize`): repeatedly
pick `j` below the shrinking bound `m`, emit `pool[j]`, and move
`pool[m-1]` into the vacated slot. -/
def samplePoolLoop (fuel : Nat) : Nat → MTState → List Card → Nat → Option (List Card × MTState)
  | 0, s, _, _ => some ([], s)
  | k+1, s, pool, m =>
    (randbelow fuel m s).bind fun js =>
      (samplePoolLoop fuel k js.2 (pool.set js.1 (pool.getD (m - 1) default)) (m - 1)).map
        fun rs => (pool.getD js.1 default :: rs.1, rs.2)

/-- The `while j in selected` redraw loop of `Random.sample`'s set path;
terminates only almost surely in Python, so fuel bounds the redraws. -/
def sampleSetDraw (fuel n : Nat) (selected : List Nat) : Nat → MTState → Option (Nat × MTState)
  | 0, _ => none
  | tries+1, s =>
    (randbelow fuel n s).bind fun js =>
      if js.1 ∈ selected then sampleSetDraw fuel n selected tries js.2 else some js

/-- Set path of `Random.sample` (taken when `n > setsize`): draw indices
below `n`, redrawing on collision with the selected set, and emit
`population[j]` for each fresh index. -/
def sampleSetLoop (fuel : Nat) (population : List Card) (n : Nat) : Nat → List Nat → MTState → Option (List Card × MTState)
  | 0, _, s => some ([], s)
  | k+1, selected, s =>
    (sampleSetDraw fuel n selected fuel s).bind fun js =>
      (sampleSetLoop fuel population n k (js.1 :: selected) js.2).map
        fun rs => (population.getD js.1 default :: rs.1, rs.2)

/-- Outcome of a modelled Python call: a value, a raised `ValueError` or
`TypeError`, or exhaustion of the fuel bounding a rejection loop. -/
inductive PyResult (α : Type) where
  | ok (value : α)
  | valueError (msg : String)
  | typeError (msg : String)
  | outOfFuel
deriving Repr, DecidableEq

/-- The `setsize` table-size bound computed by `Random.sample`
(`21`, plus `4 ** ceil(log(k * 3, 4))` when `k > 5`). -/
def sampleSetsize (k : Nat) : Nat :=
  if 5 < k then 21 + 4 ^ ceilLog4 (3 * k) else 21

/-- `Random.sample(population, k)`.  `k` arrives as a `Nat` because the
caller `select_cards` has already checked `count > 0`; the remaining
`k <= n` half of CPython's `0 <= k <= n` guard is kept.  The pool/set
branch choice on `n <= setsize` follows the Python source. -/
def sample (fuel : Nat) (s : MTState) (population : List Card) (k : Nat) : PyResult (List Card × MTState) :=
  if population.length < k then .valueError "Sample larger than population or is negative"
  else if population.length ≤ sampleSetsize k then
    match samplePoolLoop fuel k s population population.length with
    | none => .outOfFuel
    | some (l, s1) => .ok (l, s1)
  else
    match sampleSetLoop fuel population population.length k [] s with
    | none => .outOfFuel
    | some (l, s1) => .ok (l, s1)

/-- The `magic_number` argument as Python sees it: an `int`, or any
non-integer value, which `select_cards` rejects with `TypeError` via its
`isinstance` check. -/
inductive MagicNumber where
  | int (z : Int)
  | nonInt
deriving Repr, DecidableEq

/-- `select_cards(deck, count, magic_number, user_age, timestamp)` from
`src/card_manager.py`.  `g` is the global `random` module state on
entry; `random.seed(complex_seed)` overwrites it, so the body never
reads `g`, and the `timestamp` parameter is never read at all.  The
`isinstance(deck, TarotDeck)` check holds by typing here.  On `ok` the
pair carries the selected cards and the generator state the call leaves
behind; a raised error leaves the caller's state untouched. -/
def select_cards (fuel : Nat) (g : MTState) (deck : TarotDeck) (count : Int)
    (magic_number : MagicNumber) (user_age : Option Int) (timestamp : Option Int) :
    PyResult (List Card × MTState) :=
  if count ≤ 0 then .valueError "Количество карт должно быть больше 0"
  else if (deck.get_cards_count : Int) < count then
    .valueError "Нельзя выбрать больше карт, чем есть в колоде"
  else
    match magic_number with
    | .nonInt => .typeError "Магическое число должно быть целым числом"
    | .int m =>
      let complex_seed : Int :=
        match user_age with
        | some age => m + age
        | none => m
      sample fuel (seedMT complex_seed) deck.cards count.toNat

/-- `true` exactly when the result is a raised `ValueError`/`TypeError`,
the two `InvalidArgument`-class failures of the spec's taxonomy. -/
def PyResult.isInvalidArg : PyResult (List Card × MTState) → Bool
  | .valueError _ => true
  | .typeError _ => true
  | .ok _ => false
  | .outOfFuel => false

/-- Length-and-distinctness contract of a `select_cards` outcome: if the
call produced a card list, it has exactly `count` cards, pairwise
distinct.  Error and out-of-fuel outcomes assert nothing. -/
def PyResult.okLenNodup : PyResult (List Card × MTState) → Int → Prop
  | .ok (l, _), count => (l.length : Int) = count ∧ l.Nodup
  | .valueError _, _ => True
  | .typeError _, _ => True
  | .outOfFuel, _ => True

/-- A concrete card used to instantiate theorems with hypotheses at
explicit inputs. -/
def foolCard : Card :=
  { name := "The Fool", number := 0, arcana := "Major Arcana", suit := "Trumps", img := "m00.jpg" }

/-- A second concrete card. -/
def magicianCard : Card :=
  { name := "The Magician", number := 1, arcana := "Major Arcana", suit := "Trumps", img := "m01.jpg" }

/-- A concrete two-card deck used to instantiate theorems with
hypotheses at explicit inputs. -/
def sampleDeck : TarotDeck :=
  ⟨[foolCard, magicianCard]⟩

/-- A throwaway incoming generator state (`select_cards` never reads it:
`random.seed` overwrites the global state first). -/
def mtZero : MTState := ⟨#[], 0⟩

/-! ## Python string primitives over `List Char`

Python strings are sequences of code points, modelled as `List Char`.
`str.strip`/`str.split` and the regex class `\s` treat the ASCII
whitespace characters below as whitespace; Python additionally strips a
few rare non-ASCII space code points, which do not occur in the texts
this code handles. -/

/-- The characters of a string literal, as the Python string it models. -/
def pyStr (s : String) : List Char := s.data

/-- Python whitespace (`str.strip`, `str.split`, regex `\s`). -/
def isPySpace (c : Char) : Bool :=
  c == ' ' || c == '\t' || c == '\n' || c == '\r' || c == '\x0b' || c == '\x0c'

/-- Python `str.strip()`: drop whitespace from both ends. -/
def pyStrip (l : List Char) : List Char :=
  ((l.dropWhile isPySpace).reverse.dropWhile isPySpace).reverse

/-- Python `str.lower()` restricted to ASCII letters and the Russian
alphabet (the only cased characters these texts contain). -/
def pyLowerChar (c : Char) : Char :=
  if 'A' ≤ c ∧ c ≤ 'Z' then Char.ofNat (c.toNat + 32)
  else if 'А' ≤ c ∧ c ≤ 'Я' then Char.ofNat (c.toNat + 32)
  else if c = 'Ё' then 'ё'
  else c

/-- Helper of `pySplit`: `acc` holds the reversed current word. -/
def pySplitAux : List Char → List Char → List (List Char)
  | [], acc => if acc.isEmpty then [] else [acc.reverse]
  | c :: rest, acc =>
    if isPySpace c then
      if acc.isEmpty then pySplitAux rest [] else acc.reverse :: pySplitAux rest []
    else pySplitAux rest (c :: acc)

/-- Python `str.split()` with no argument: maximal runs of
non-whitespace characters. -/
def pySplit (l : List Char) : List (List Char) :=
  pySplitAux l []

/-- Python `str.split('\n')` (`splitlines` is not used by the source). -/
def splitNewlines : List Char → List (List Char)
  | [] => [[]]
  | c :: rest =>
    let r := splitNewlines rest
    if c = '\n' then [] :: r
    else
      match r with
      | [] => [[c]]
      | h :: t => (c :: h) :: t

/-- First index at which `needle` occurs as a contiguous sublist. -/
def findSub (needle : List Char) : List Char → Option Nat
  | [] => if needle.isEmpty then some 0 else none
  | c :: rest =>
    if needle.isPrefixOf (c :: rest) then some 0
    else (findSub needle rest).map (· + 1)

/-! ## `MessageContext` and `send_request` (`src/openrouter_client.py`) -/

/-- One entry of `MessageContext.messages`: the `role` and the text of
the single `{type: "text", text: ...}` part every builder method puts in
`content`. -/
structure ChatMessage where
  role : String
  text : List Char
deriving Repr, DecidableEq

/-- `MessageContext`: an optional system prompt plus the message log. -/
structure MessageContext where
  task_prompt : Option (List Char)
  messages : List ChatMessage
deriving Repr, DecidableEq

/-- `MessageContext.__init__`: store the prompt, start with no
materialized messages. -/
def MessageContext.new (task_prompt : Option (List Char)) : MessageContext :=
  ⟨task_prompt, []⟩

/-- Python truthiness of `self.task_prompt` (`None` and the empty
string are falsy). -/
def promptTruthy : Option (List Char) → Bool
  | none => false
  | some t => !t.isEmpty

/-- `MessageContext.add_user_message`: if the task prompt is truthy and
no message has been materialized yet, insert the system message first,
then append the user message. -/
def MessageContext.add_user_message (ctx : MessageContext) (text : List Char) : MessageContext :=
  let base :=
    if promptTruthy ctx.task_prompt && (ctx.messages.length == 0) then
      ctx.messages ++ [⟨"system", ctx.task_prompt.getD []⟩]
    else ctx.messages
  { ctx with messages := base ++ [⟨"user", text⟩] }

/-- `MessageContext.add_assistant_message`. -/
def MessageContext.add_assistant_message (ctx : MessageContext) (text : List Char) : MessageContext :=
  { ctx with messages := ctx.messages ++ [⟨"assistant", text⟩] }

/-- `MessageContext.add_system_message`. -/
def MessageContext.add_system_message (ctx : MessageContext) (text : List Char) : MessageContext :=
  { ctx with messages := ctx.messages ++ [⟨"system", text⟩] }

/-- `MessageContext.get_message_history` returns a defensive copy of the
message list — the identity in this pure model. -/
def MessageContext.get_message_history (ctx : MessageContext) : List ChatMessage :=
  ctx.messages

/-- A message after `_convert_messages`: `content` flattened to a plain
string.  Every message built by `MessageContext` holds exactly one text
part, so the `"\n".join` flattening returns that part unchanged. -/
structure ConvertedMessage where
  role : String
  content : List Char
deriving Repr, DecidableEq

/-- `_convert_messages` on messages built by `MessageContext` (the
`role`/`content` presence check never fires for them). -/
def convert_messages (msgs : List ChatMessage) : List ConvertedMessage :=
  msgs.map fun m => ⟨m.role, m.text⟩

/-- The completion-endpoint response body as `send_request` inspects it:
unparseable JSON, or a parsed object reduced to the `content` of each
choice's `message` (`none` for a missing `message`/`content` or JSON
`null`).  The `provider`/`usage` fields only feed error-message text and
are elided. -/
inductive ResponseBody where
  | malformed
  | parsed (choices : List (Option (List Char)))
deriving Repr, DecidableEq

/-- An HTTP response: status code and body. -/
structure HttpResponse where
  status : Nat
  body : ResponseBody
deriving Repr, DecidableEq

/-- An error raised by `send_request`: a `ValueError` on argument
validation, or an `OpenRouterError` (the spec's `TransportError`) on
provider failure.  Error-message strings are abbreviated. -/
inductive SendError where
  | valueErr (msg : String)
  | transportErr (msg : String)
deriving Repr, DecidableEq

/-- `send_request(messages, model, api_key, ...)` from
`src/openrouter_client.py`, applied to the one HTTP response the `aiohttp`
call produced (network-level exceptions, also mapped to `OpenRouterError`
by the source, are outside this model, as is the `@retry` decorator,
which re-raises the final error unchanged).  Classification of the
response follows lines 198-222 of the source. -/
def send_request (messages : List ChatMessage) (model api_key : List Char)
    (resp : HttpResponse) : Except SendError (List Char) :=
  if api_key = [] then .error (.valueErr "API key required")
  else if model = [] ∨ model.contains '/' = false then .error (.valueErr "bad model name")
  else if messages = [] then .error (.valueErr "empty message list")
  else if resp.status ≠ 200 then .error (.transportErr "bad HTTP status")
  else
    match resp.body with
    | .malformed => .error (.transportErr "JSON parse error")
    | .parsed choices =>
      match choices with
      | [] => .error (.transportErr "no choices")
      | c :: _ =>
        match c with
        | none => .error (.transportErr "empty content")
        | some content =>
          if pyStrip content = [] then .error (.transportErr "empty content")
          else .ok (pyStrip content)

/-- `true` exactly when the outcome is a raised `OpenRouterError`. -/
def isTransportError : Except SendError (List Char) → Bool
  | .error (.transportErr _) => true
  | _ => false

/-! ## Staged interpretation session (`src/llm_session.py`)

The regexes of `_extract_questions_from_response` and
`_clean_final_response` are modelled as explicit scanners.  Lazy
captures `(.+?)` bounded by a `(?=MARKER|$)` lookahead are modelled by
cutting at the next marker occurrence (or at the end of the text, where
`$` also matches just before a string-final newline); the scanners take
a fuel argument one larger than the text length, which the per-step
consumption of at least one character never exhausts. -/

/-- `user_data`: the `name`/`age` entries `initialize_session` and the
fallback read with `.get`. -/
structure UserData where
  name : Option (List Char)
  age : Option Int
deriving Repr, DecidableEq

/-- `spread_data`: the `spread_type`, `cards` and `questions` entries
the session reads with `.get`. -/
structure SpreadData where
  spread_type : Option String
  cards : List Card
  questions : List (List Char)
deriving Repr, DecidableEq

/-- Session state: the `LLMSession` attributes the staged calls read
and write. -/
structure LLMSessionState where
  context : MessageContext
  current_stage : Option String
  user_data : UserData
  spread_data : SpreadData
  generated_questions : List (List Char)
  question_answers : List (List Char)
deriving Repr, DecidableEq

/-- `LLMSession.__init__`: a `MessageContext` with `task_prompt=None`
and empty session data. -/
def freshSession : LLMSessionState :=
  ⟨MessageContext.new none, none, ⟨none, none⟩, ⟨none, [], []⟩, [], []⟩

/-- One LLM transport call as the session sees it: the accumulated
message history in, the model's reply text or a raised error out
(`send_request` composed over the network). -/
def Transport : Type :=
  List ChatMessage → Except SendError (List Char)

/-- `PromptManager.get_system_persona`: the user's name, age and the
current date prepended to the persona template. -/
def get_system_persona (template name : List Char) (age : Int) (current_date : List Char) :
    List Char :=
  pyStr "Имя пользователя: " ++ name ++ pyStr "\nВозраст: " ++ (toString age).data
    ++ pyStr " лет\nТекущая дата: " ++ current_date ++ pyStr "\n\n" ++ template

/-- `LLMSession.initialize_session`: store the user and spread data and
add the persona prompt to the context via `add_user_message`. -/
def initialize_session (persona_template today : List Char) (st : LLMSessionState)
    (user_data : UserData) (spread_data : SpreadData) : LLMSessionState :=
  let system_prompt := get_system_persona persona_template
    (user_data.name.getD (pyStr "Друг")) (user_data.age.getD 25) today
  { st with
    user_data := user_data
    spread_data := spread_data
    context := st.context.add_user_message system_prompt
    current_stage := some "system" }

/-- `PromptManager.format_user_answers`: numbered question/answer blocks
joined by newlines. -/
def formatUserAnswersAux : Nat → List (List Char × List Char) → List (List Char)
  | _, [] => []
  | i, (q, a) :: rest =>
    (pyStr "Вопрос " ++ (toString i).data ++ pyStr ": " ++ q)
      :: (pyStr "Ответ: " ++ a) :: [] :: formatUserAnswersAux (i+1) rest

/-- `PromptManager.format_user_answers`. -/
def format_user_answers (questions answers : List (List Char)) : List Char :=
  List.intercalate (pyStr "\n") (formatUserAnswersAux 1 (questions.zip answers))

/-- `LLMSession.add_preliminary_answers`: if any answers were given,
append them as one user message. -/
def add_preliminary_answers (st : LLMSessionState) (answers : List (List Char)) :
    LLMSessionState :=
  if answers.isEmpty then st
  else
    let answers_text := format_user_answers st.spread_data.questions answers
    { st with context :=
        st.context.add_user_message (pyStr "ПРЕДВАРИТЕЛЬНЫЕ ОТВЕТЫ ПОЛЬЗОВАТЕЛЯ:\n" ++ answers_text) }

/-- The `answers_text` accumulator of
`PromptManager.get_psychological_analysis_prompt`. -/
def psychAnswersText : Nat → List (List Char) → List Char
  | _, [] => []
  | i, a :: rest =>
    pyStr "\nВопрос " ++ (toString i).data ++ pyStr ": " ++ a ++ psychAnswersText (i+1) rest

/-- `PromptManager.get_psychological_analysis_prompt`. -/
def get_psychological_analysis_prompt (template : List Char) (user_answers : List (List Char)) :
    List Char :=
  if user_answers.isEmpty then template
  else
    template ++ pyStr "\n\n## ОТВЕТЫ ПОЛЬЗОВАТЕЛЯ НА ПРЕДВАРИТЕЛЬНЫЕ ВОПРОСЫ\n"
      ++ psychAnswersText 1 user_answers
      ++ pyStr "\n\nИспользуйте эти ответы для глубокого понимания ситуации пользователя."

/-! ### Question extraction -/

/-- `_validate_question`: a kept question is non-empty, at least 10
characters once stripped, at most 500 characters raw, and contains a
question mark. -/
def validate_question (q : List Char) : Bool :=
  if q = [] ∨ (pyStrip q).length < 10 then false
  else if 500 < q.length then false
  else q.contains '?'

/-- The per-spread-type caps of `_validate_questions_count`
(default 5). -/
def max_questions_limit (spread_type : String) : Nat :=
  if spread_type = "single_card" then 2
  else if spread_type = "three_cards" then 3
  else if spread_type = "horseshoe" then 4
  else if spread_type = "love_triangle" then 5
  else if spread_type = "celtic_cross" then 7
  else if spread_type = "week_forecast" then 4
  else if spread_type = "year_wheel" then 5
  else 5

/-- `_validate_questions_count`: truncate to the cap, keeping order. -/
def validate_questions_count (spread_type : String) (questions : List (List Char)) :
    List (List Char) :=
  let limit := max_questions_limit spread_type
  if limit < questions.length then questions.take limit else questions

/-- `re.search(START(.*?)END, text)` for literal markers with
`re.DOTALL` (and `re.IGNORECASE` when `ci`): the group runs from the
first occurrence of the start marker to the earliest end marker after
it.  If the first start marker has no end marker after it, no later one
has either, so the leftmost-match search fails. -/
def searchBlock (ci : Bool) (startM endM text : List Char) : Option (List Char) :=
  let tf := if ci then text.map pyLowerChar else text
  let sm := if ci then startM.map pyLowerChar else startM
  let em := if ci then endM.map pyLowerChar else endM
  match findSub sm tf with
  | none => none
  | some i =>
    let st := i + sm.length
    match findSub em (tf.drop st) with
    | none => none
    | some j => some ((text.drop st).take j)

/-- Length of a `Q\d+:` marker at the head of the list, if any. -/
def qMarkerLen : List Char → Option Nat
  | 'Q' :: rest =>
    let ds := rest.takeWhile Char.isDigit
    if ds.isEmpty then none
    else
      match rest.drop ds.length with
      | ':' :: _ => some (ds.length + 2)
      | _ => none
  | _ => none

/-- Length of a case-insensitive `Вопрос\s+\d+:` marker at the head. -/
def voprosMarkerLen (l : List Char) : Option Nat :=
  if (l.take 6).map pyLowerChar = pyStr "вопрос" ∧ 6 ≤ l.length then
    let rest := l.drop 6
    let ws := rest.takeWhile isPySpace
    if ws.isEmpty then none
    else
      let rest2 := rest.drop ws.length
      let ds := rest2.takeWhile Char.isDigit
      if ds.isEmpty then none
      else
        match rest2.drop ds.length with
        | ':' :: _ => some (6 + ws.length + ds.length + 1)
        | _ => none
  else none

/-- Length of a `\d+\.` marker at the head of the list, if any. -/
def numDotMarkerLen (l : List Char) : Option Nat :=
  let ds := l.takeWhile Char.isDigit
  if ds.isEmpty then none
  else
    match l.drop ds.length with
    | '.' :: _ => some (ds.length + 1)
    | _ => none

/-- Length of a `[-•]` marker at the head of the list, if any. -/
def bulletMarkerLen : List Char → Option Nat
  | '-' :: _ => some 1
  | '•' :: _ => some 1
  | _ => none

/-- Position and length of the first marker occurrence. -/
def findMarker (markerAt : List Char → Option Nat) : List Char → Option (Nat × Nat)
  | [] =>
    match markerAt [] with
    | some len => some (0, len)
    | none => none
  | c :: rest =>
    match markerAt (c :: rest) with
    | some len => some (0, len)
    | none => (findMarker markerAt rest).map (fun p => (p.1 + 1, p.2))

/-- `re.findall(M\s*(.+?)(?=M|$), text, re.DOTALL)` for a marker
recognizer `M`: after each marker and its following whitespace, the lazy
capture (at least one character) runs to the next marker occurrence, or
to the end of the text (`$` also matching just before a string-final
newline); scanning resumes at the capture's end. -/
def markerFindall (markerAt : List Char → Option Nat) : Nat → List Char → List (List Char)
  | 0, _ => []
  | fuel+1, text =>
    match findMarker markerAt text with
    | none => []
    | some (s, ml) =>
      let body := (text.drop (s + ml)).dropWhile isPySpace
      if body.isEmpty then []
      else
        match findMarker markerAt (body.drop 1) with
        | some (d, _) => body.take (d + 1) :: markerFindall markerAt fuel (body.drop (d + 1))
        | none => [if body.getLast? = some '\n' then body.dropLast else body]

/-- Earliest admissible end of a lazy `(.+?\?)` capture in `body`: the
position after a `?` at which the `(?=M|$)` lookahead holds. -/
def qmarkStop (markerAt : List Char → Option Nat) (body : List Char) : Option Nat :=
  ((List.range body.length).find? fun i =>
    body.getD i ' ' == '?' &&
      ((markerAt (body.drop (i + 1))).isSome || i + 1 == body.length ||
        (i + 2 == body.length && body.getLast? == some '\n'))).map (· + 1)

/-- `re.findall(M\s*(.+?\?)(?=M|$), text, re.DOTALL)`: like
`markerFindall`, but the capture must end in `?`; a marker with no
admissible capture end is skipped. -/
def qmarkFindall (markerAt : List Char → Option Nat) : Nat → List Char → List (List Char)
  | 0, _ => []
  | fuel+1, text =>
    match findMarker markerAt text with
    | none => []
    | some (s, ml) =>
      let body := (text.drop (s + ml)).dropWhile isPySpace
      match qmarkStop markerAt body with
      | some t => body.take t :: qmarkFindall markerAt fuel (body.drop t)
      | none => qmarkFindall markerAt fuel (text.drop (s + 1))

/-- Way 1 of `_extract_questions_from_response`: a
`[QUESTIONS_START]...[QUESTIONS_END]` block parsed for `Q<n>:` entries,
each stripped and validated. -/
def extract_way1 (response : List Char) : List (List Char) :=
  match searchBlock true (pyStr "[QUESTIONS_START]") (pyStr "[QUESTIONS_END]") response with
  | none => []
  | some g =>
    let block := pyStrip g
    ((markerFindall qMarkerLen (block.length + 1) block).map pyStrip).filter validate_question

/-- A `^\d+\.`-numbered line with the prefix removed, if it is one. -/
def numberedLineQuestion (line : List Char) : Option (List Char) :=
  let ds := line.takeWhile Char.isDigit
  if ds.isEmpty then none
  else
    match line.drop ds.length with
    | '.' :: rest => some (rest.dropWhile isPySpace)
    | _ => none

/-- Way 2: a legacy `<QUESTIONS>...</QUESTIONS>` block, numbered lines
validated one by one. -/
def extract_way2 (response : List Char) : List (List Char) :=
  match searchBlock false (pyStr "<QUESTIONS>") (pyStr "</QUESTIONS>") response with
  | none => []
  | some g =>
    (splitNewlines (pyStrip g)).filterMap fun line =>
      match numberedLineQuestion (pyStrip line) with
      | some q => if validate_question q then some q else none
      | none => none

/-- Way 3: the three fallback patterns, stopping at the first one with
any raw match (the source `break`s on non-empty `findall` output even if
validation then discards everything). -/
def extract_way3 (response : List Char) : List (List Char) :=
  let m1 := markerFindall voprosMarkerLen (response.length + 1) response
  if ¬ m1.isEmpty then (m1.map pyStrip).filter validate_question
  else
    let m2 := qmarkFindall numDotMarkerLen (response.length + 1) response
    if ¬ m2.isEmpty then (m2.map pyStrip).filter validate_question
    else
      let m3 := qmarkFindall bulletMarkerLen (response.length + 1) response
      if ¬ m3.isEmpty then (m3.map pyStrip).filter validate_question
      else []

/-- The `questions` accumulator of `_extract_questions_from_response`
before the count cap: ways 1-3 tried in order until one is non-empty. -/
def extract_uncapped (response : List Char) : List (List Char) :=
  let w1 := extract_way1 response
  if ¬ w1.isEmpty then w1
  else
    let w2 := extract_way2 response
    if ¬ w2.isEmpty then w2
    else extract_way3 response

/-- `_extract_questions_from_response`: extract, then cap the count for
the spread type (the cap is only applied to a non-empty list, as in the
source). -/
def extract_questions_from_response (spread_type : String) (response : List Char) :
    List (List Char) :=
  let questions := extract_uncapped response
  if ¬ questions.isEmpty then validate_questions_count spread_type questions else questions

/-! ### Final-response cleaning, validation and fallback -/

/-- `re.sub(r'<[^>]+>', '', text)`: drop every `<...>` span with at
least one non-`>` character inside; an unmatched `<` stays. -/
def stripTags : Nat → List Char → List Char
  | 0, l => l
  | _+1, [] => []
  | fuel+1, c :: rest =>
    if c = '<' then
      match rest.findIdx? (· = '>') with
      | some j => if j = 0 then c :: stripTags fuel rest else stripTags fuel (rest.drop (j + 1))
      | none => c :: stripTags fuel rest
    else c :: stripTags fuel rest

/-- `re.sub(r'\n\s*\n', '\n\n', text)`: each newline whose following
whitespace run contains another newline collapses, with the run up to
its last newline, to a blank line; whitespace after that last newline
survives. -/
def collapseBlank : Nat → List Char → List Char
  | 0, l => l
  | _+1, [] => []
  | fuel+1, c :: rest =>
    if c = '\n' then
      let run := rest.takeWhile isPySpace
      if run.contains '\n' then
        let trailing := (run.reverse.takeWhile (fun x => ¬ x = '\n')).length
        '\n' :: '\n' :: collapseBlank fuel (rest.drop (run.length - trailing))
      else c :: collapseBlank fuel rest
    else c :: collapseBlank fuel rest

/-- The `cleaned` value of `_clean_final_response`: an
`[INTERPRETATION_START]...[INTERPRETATION_END]` block if present,
otherwise the reply with markup tags stripped; then stripped and with
blank runs collapsed. -/
def clean_candidate (response : List Char) : List Char :=
  let cleaned :=
    match searchBlock true (pyStr "[INTERPRETATION_START]") (pyStr "[INTERPRETATION_END]")
        response with
    | some g => pyStrip g
    | none => stripTags (response.length + 1) response
  collapseBlank (pyStrip cleaned).length.succ (pyStrip cleaned)

/-- The repetition detector of `_validate_interpretation`:
`len(set(words)) / len(words) < 0.3` on the lowercased word list, `0`
for no words.  The comparison is exact here; the float division of the
source differs from the exact ratio only within `10^-16` of `0.3`,
unreachable for word counts below `10^8`. -/
def word_ratio_low (interpretation : List Char) : Bool :=
  let words := pySplit (interpretation.map pyLowerChar)
  words.isEmpty || decide (10 * words.dedup.length < 3 * words.length)

/-- `_validate_interpretation`: reject empty or short (< 50 characters
stripped) text and repetition-heavy text.  The card-mention and emoji
checks of the source only log and never change the result. -/
def validate_interpretation (interpretation : List Char) : Bool :=
  if interpretation = [] ∨ (pyStrip interpretation).length < 50 then false
  else if word_ratio_low interpretation then false
  else true

/-- One card line of `_get_fallback_interpretation` (the
`f'Карта {i}'` default for a missing name is unreachable: every loaded
card carries `name`). -/
def fallbackCardLine (c : Card) : List Char :=
  pyStr "🎴 **" ++ c.name.data
    ++ pyStr "** — эта карта символизирует важные изменения в вашей жизни.\n"

/-- `_get_fallback_interpretation`: a templated text naming up to the
first three drawn cards. -/
def get_fallback_interpretation (spread : SpreadData) (user : UserData) : List Char :=
  if spread.cards.isEmpty then
    pyStr "🔮 К сожалению, не удалось сгенерировать интерпретацию для вашего расклада. Попробуйте еще раз."
  else
    pyStr "🔮 **" ++ user.name.getD (pyStr "Друг") ++ pyStr ", ваш "
      ++ (spread.spread_type.getD "расклад").data ++ pyStr " готов!**\n\n"
      ++ ((spread.cards.take 3).map fallbackCardLine).flatten
      ++ pyStr "\n✨ Карты показывают период роста и новых возможностей. Доверьтесь интуиции и будьте открыты переменам!"

/-- `_clean_final_response`: clean, validate, and substitute the
fallback on validation failure (no error ever escapes). -/
def clean_final_response (spread : SpreadData) (user : UserData) (response : List Char) :
    List Char :=
  let cleaned := clean_candidate response
  if validate_interpretation cleaned then cleaned
  else get_fallback_interpretation spread user

/-! ### Stage calls -/

/-- `generate_psychological_analysis` (stage 4 of the spec's numbering):
optionally append the preliminary answers, append the analysis prompt,
call the transport, append the reply, extract and store the questions.
On a raised transport error the prompt stays appended and `[]` is
returned. -/
def generate_psychological_analysis (transport : Transport) (template : List Char)
    (preliminary_answers : Option (List (List Char))) (st : LLMSessionState) :
    List (List Char) × LLMSessionState :=
  let st1 :=
    match preliminary_answers with
    | some answers => if answers.isEmpty then st else add_preliminary_answers st answers
    | none => st
  let analysis_prompt := get_psychological_analysis_prompt template (preliminary_answers.getD [])
  let ctx := st1.context.add_user_message analysis_prompt
  match transport ctx.get_message_history with
  | .ok response =>
    let questions := extract_questions_from_response (st1.spread_data.spread_type.getD "") response
    (questions,
     { st1 with
        context := ctx.add_assistant_message response
        generated_questions := questions
        current_stage := some "psychological_analysis" })
  | .error _ => ([], { st1 with context := ctx })

/-- `generate_context_analysis` (stage 6): append the prompt, call the
transport, append the reply. -/
def generate_context_analysis (transport : Transport) (prompt : List Char)
    (st : LLMSessionState) : Bool × LLMSessionState :=
  let ctx := st.context.add_user_message prompt
  match transport ctx.get_message_history with
  | .ok response =>
    (true, { st with
      context := ctx.add_assistant_message response
      current_stage := some "context_analysis" })
  | .error _ => (false, { st with context := ctx })

/-- `generate_synthesis` (stage 7): append the prompt, call the
transport, append the reply. -/
def generate_synthesis (transport : Transport) (prompt : List Char)
    (st : LLMSessionState) : Bool × LLMSessionState :=
  let ctx := st.context.add_user_message prompt
  match transport ctx.get_message_history with
  | .ok response =>
    (true, { st with
      context := ctx.add_assistant_message response
      current_stage := some "synthesis" })
  | .error _ => (false, { st with context := ctx })

/-- `generate_final_interpretation` (stage 8): append the prompt, call
the transport, and return the cleaned reply WITHOUT appending it to the
context. -/
def generate_final_interpretation (transport : Transport) (prompt : List Char)
    (st : LLMSessionState) : Option (List Char) × LLMSessionState :=
  let ctx := st.context.add_user_message prompt
  match transport ctx.get_message_history with
  | .ok response =>
    (some (clean_final_response st.spread_data st.user_data response),
     { st with context := ctx, current_stage := some "final_response" })
  | .error _ => (none, { st with context := ctx })

/-- Validity of every element of an extracted question list, stated
recursively so that the property carries no embedded binders. -/
def allValidQuestions : List (List Char) → Prop
  | [] => True
  | q :: rest =>
    (10 ≤ q.length ∧ q.length ≤ 500 ∧ q.contains '?' = true) ∧ allValidQuestions rest

/-! ## Theorems -/

/-- The rejection loop only ever returns a value below its bound. -/
theorem randbelowLoop_lt : ∀ (fuel : Nat) {n k : Nat} {s : MTState} {j : Nat} {s' : MTState},
    randbelowLoop n k fuel s = some (j, s') → j < n
  | 0, _, _, _, _, _, h => by simp [randbelowLoop] at h
  | fuel+1, n, k, s, j, s', h => by
    rw [randbelowLoop] at h
    by_cases hc : (getrandbits s k).1 < n
    · rw [if_pos hc] at h
      cases h
      exact hc
    · rw [if_neg hc] at h
      exact randbelowLoop_lt fuel h

/-- `_randbelow(n)` returns a value below `n` whenever `n` is positive. -/
theorem randbelow_lt {fuel n : Nat} {s : MTState} {j : Nat} {s' : MTState}
    (hn : 0 < n) (h : randbelow fuel n s = some (j, s')) : j < n := by
  rw [randbelow, if_neg hn.ne'] at h
  exact randbelowLoop_lt fuel h

/-- The pool path emits exactly `k` cards when it completes. -/
theorem samplePoolLoop_length : ∀ (k : Nat) {fuel : Nat} {s : MTState} {pool : List Card}
    {m : Nat} {res : List Card} {s' : MTState},
    samplePoolLoop fuel k s pool m = some (res, s') → res.length = k
  | 0, _, _, _, _, res, s', h => by
    simp only [samplePoolLoop, Option.some.injEq, Prod.mk.injEq] at h
    rw [← h.1]
    rfl
  | k+1, fuel, s, pool, m, res, s', h => by
    rw [samplePoolLoop, Option.bind_eq_some] at h
    obtain ⟨p, hrb, h⟩ := h
    rw [Option.map_eq_some'] at h
    obtain ⟨q, hrec, hq⟩ := h
    cases hq
    simp [samplePoolLoop_length k hrec]

/-- Replacing the element at `j` and re-consing the old value permutes
the list: `l[j] :: l.set j y` is a permutation of `y :: l`. -/
theorem getD_cons_set_perm {α : Type} [Inhabited α] : ∀ (l : List α) (j : Nat), j < l.length →
    ∀ y : α, (l.getD j default :: l.set j y).Perm (y :: l)
  | [], j, hj, _ => by simp at hj
  | a :: t, 0, _, y => by
    simpa using List.Perm.swap y a t
  | a :: t, j+1, hj, y => by
    have ih := getD_cons_set_perm t j (by simpa using hj) y
    have e1 : (a :: t).getD (j+1) default = t.getD j default := rfl
    have e2 : (a :: t).set (j+1) y = a :: t.set j y := rfl
    rw [e1, e2]
    have s1 : (t.getD j default :: a :: t.set j y).Perm (a :: t.getD j default :: t.set j y) :=
      List.Perm.swap a _ _
    have s2 : (a :: t.getD j default :: t.set j y).Perm (a :: y :: t) := ih.cons a
    have s3 : (a :: y :: t).Perm (y :: a :: t) := List.Perm.swap y a t
    exact (s1.trans s2).trans s3

/-- One pool-path step: the drawn card together with the first `m - 1`
cells of the updated pool is a permutation of the first `m` cells of the
old pool (the Fisher-Yates-style swap invariant of `Random.sample`). -/
theorem pool_step_perm (pool : List Card) (j m : Nat) (hj : j < m) (hm : m ≤ pool.length) :
    (pool.getD j default :: ((pool.set j (pool.getD (m-1) default)).take (m-1))).Perm
      (pool.take m) := by
  have hm1 : m - 1 < pool.length := by omega
  have htake : pool.take m = pool.take (m-1) ++ [pool[m-1]] := by
    conv_lhs => rw [show m = (m-1) + 1 by omega]
    rw [List.take_succ, List.getElem?_eq_getElem hm1]
    rfl
  rw [List.set_take]
  by_cases hjm : j = m - 1
  · subst hjm
    have hset : (pool.take (m-1)).set (m-1) (pool.getD (m-1) default) = pool.take (m-1) := by
      apply List.set_eq_of_length_le
      simp [List.length_take]
    rw [hset, htake, List.getD_eq_getElem _ _ hm1]
    exact (List.perm_append_singleton _ _).symm
  · have hjt : j < (pool.take (m-1)).length := by
      rw [List.length_take]
      omega
    have hgd : pool.getD j default = (pool.take (m-1)).getD j default := by
      rw [List.getD_eq_getElem _ _ (by omega), List.getD_eq_getElem _ _ hjt, List.getElem_take]
    rw [hgd, htake]
    have s1 := getD_cons_set_perm (pool.take (m-1)) j hjt (pool.getD (m-1) default)
    have s2 : (pool.getD (m-1) default :: pool.take (m-1)).Perm
        (pool.take (m-1) ++ [pool[m-1]]) := by
      rw [List.getD_eq_getElem _ _ hm1]
      exact (List.perm_append_singleton _ _).symm
    exact s1.trans s2

/-- Pool-path invariant of `Random.sample`: a completed run draws a
sub-multiset of the first `m` pool cells without replacement. -/
theorem samplePoolLoop_perm : ∀ (k : Nat) {fuel : Nat} {s : MTState} {pool : List Card}
    {m : Nat} {res : List Card} {s' : MTState}, k ≤ m → m ≤ pool.length →
    samplePoolLoop fuel k s pool m = some (res, s') →
    ∃ rest, (res ++ rest).Perm (pool.take m)
  | 0, _, _, pool, m, res, s', _, _, h => by
    simp only [samplePoolLoop, Option.some.injEq, Prod.mk.injEq] at h
    exact ⟨pool.take m, by rw [← h.1]; simp⟩
  | k+1, fuel, s, pool, m, res, s', hkm, hm, h => by
    rw [samplePoolLoop, Option.bind_eq_some] at h
    obtain ⟨p, hrb, h⟩ := h
    rw [Option.map_eq_some'] at h
    obtain ⟨q, hrec, hq⟩ := h
    cases hq
    have hj : p.1 < m := randbelow_lt (by omega) hrb
    obtain ⟨rest, hperm⟩ := samplePoolLoop_perm k (by omega)
      (by rw [List.length_set]; omega) hrec
    refine ⟨rest, ?_⟩
    have s1 : (pool.getD p.1 default :: (q.1 ++ rest)).Perm
        (pool.getD p.1 default :: (pool.set p.1 (pool.getD (m - 1) default)).take (m - 1)) :=
      hperm.cons _
    exact s1.trans (pool_step_perm pool p.1 m hj hm)

/-- The set-path redraw loop yields a fresh index below the bound. -/
theorem sampleSetDraw_spec : ∀ (tries : Nat) {fuel n : Nat} {selected : List Nat} {s : MTState}
    {j : Nat} {s' : MTState}, 0 < n → sampleSetDraw fuel n selected tries s = some (j, s') →
    j < n ∧ j ∉ selected
  | 0, _, _, _, _, _, _, _, h => by simp [sampleSetDraw] at h
  | tries+1, fuel, n, selected, s, j, s', hn, h => by
    rw [sampleSetDraw, Option.bind_eq_some] at h
    obtain ⟨p, hrb, h⟩ := h
    by_cases hmem : p.1 ∈ selected
    · rw [if_pos hmem] at h
      exact sampleSetDraw_spec tries hn h
    · rw [if_neg hmem] at h
      rw [Option.some.injEq] at h
      subst h
      exact ⟨randbelow_lt hn (by rw [hrb]), hmem⟩

/-- Set-path invariant of `Random.sample`: a completed run reads `k`
pairwise-distinct indices below `n`, none of them previously selected. -/
theorem sampleSetLoop_spec : ∀ (k : Nat) {fuel : Nat} {pop : List Card} {n : Nat}
    {sel : List Nat} {s : MTState} {res : List Card} {s' : MTState},
    0 < n → sampleSetLoop fuel pop n k sel s = some (res, s') →
    ∃ js : List Nat, res = js.map (fun j => pop.getD j default) ∧ js.length = k ∧
      js.Nodup ∧ ∀ j ∈ js, j < n ∧ j ∉ sel
  | 0, _, _, _, _, _, res, s', _, h => by
    simp only [sampleSetLoop, Option.some.injEq, Prod.mk.injEq] at h
    exact ⟨[], by simp [← h.1]⟩
  | k+1, fuel, pop, n, sel, s, res, s', hn, h => by
    rw [sampleSetLoop, Option.bind_eq_some] at h
    obtain ⟨p, hdr, h⟩ := h
    rw [Option.map_eq_some'] at h
    obtain ⟨q, hrec, hq⟩ := h
    cases hq
    have hp := sampleSetDraw_spec fuel hn hdr
    obtain ⟨js, hmap, hlen, hnd, hmem⟩ := sampleSetLoop_spec k hn hrec
    refine ⟨p.1 :: js, by simp [hmap], by simp [hlen], ?_, ?_⟩
    · refine List.nodup_cons.mpr ⟨fun hin => ?_, hnd⟩
      exact (hmem p.1 hin).2 (List.mem_cons_self _ _)
    · intro j hj
      rcases List.mem_cons.mp hj with rfl | hj'
      · exact hp
      · exact ⟨(hmem j hj').1, fun hs => (hmem j hj').2 (List.mem_cons_of_mem _ hs)⟩

/-- A successful `Random.sample` over a duplicate-free population yields
exactly `k` pairwise-distinct cards. -/
theorem sample_ok_len_nodup {fuel : Nat} {s : MTState} {pop : List Card} {k : Nat}
    {l : List Card} {s' : MTState} (hnd : pop.Nodup) (h : sample fuel s pop k = .ok (l, s')) :
    l.length = k ∧ l.Nodup := by
  unfold sample at h
  by_cases hg : pop.length < k
  · rw [if_pos hg] at h; cases h
  · rw [if_neg hg] at h
    by_cases hss : pop.length ≤ sampleSetsize k
    · rw [if_pos hss] at h
      cases hsp : samplePoolLoop fuel k s pop pop.length with
      | none => rw [hsp] at h; cases h
      | some q =>
        rw [hsp] at h
        cases h
        refine ⟨samplePoolLoop_length k hsp, ?_⟩
        obtain ⟨rest, hperm⟩ := samplePoolLoop_perm k (by omega) le_rfl hsp
        rw [List.take_length] at hperm
        exact (hperm.symm.nodup hnd).of_append_left
    · rw [if_neg hss] at h
      have hn : 0 < pop.length := Nat.lt_of_le_of_lt (Nat.zero_le _) (not_le.mp hss)
      cases hsl : sampleSetLoop fuel pop pop.length k [] s with
      | none => rw [hsl] at h; cases h
      | some q =>
        rw [hsl] at h
        cases h
        obtain ⟨js, hmap, hlen, hjnd, hmem⟩ := sampleSetLoop_spec k hn hsl
        refine ⟨by rw [hmap]; simp [hlen], ?_⟩
        rw [hmap]
        refine List.Nodup.map_on ?_ hjnd
        intro x hx y hy hxy
        have hxl : x < pop.length := (hmem x hx).1
        have hyl : y < pop.length := (hmem y hy).1
        rw [List.getD_eq_getElem _ _ hxl, List.getD_eq_getElem _ _ hyl] at hxy
        exact (hnd.getElem_inj_iff).mp hxy

/-- C1. `select_cards` is a pure function of `(deck, count, magic_number,
user_age)`: it neither reads the incoming generator state (the first
thing it does with the generator is `random.seed(complex_seed)`, which
overwrites it) nor the `timestamp` argument, so repeated calls — and
calls with any two timestamps, `None` included — return identical
ordered card lists. -/
theorem select_cards_deterministic (fuel : Nat) (g g' : MTState) (deck : TarotDeck)
    (count : Int) (magic : MagicNumber) (age : Option Int) (t t' : Option Int) :
    select_cards fuel g deck count magic age t = select_cards fuel g' deck count magic age t' :=
  rfl

/-- C2. On valid input, `select_cards` seeds the generator with
`magic_number + user_age` when the age is present and with
`magic_number` alone when absent, and then draws exactly
`random.sample(deck.cards, count)` with that freshly seeded generator,
preserving draw order. -/
theorem select_cards_seed_formula (fuel : Nat) (g : MTState) (deck : TarotDeck) (count : Int)
    (m a : Int) (t : Option Int) (h1 : 0 < count) (h2 : count ≤ (deck.get_cards_count : Int)) :
    select_cards fuel g deck count (.int m) (some a) t
      = sample fuel (seedMT (m + a)) deck.cards count.toNat ∧
    select_cards fuel g deck count (.int m) none t
      = sample fuel (seedMT m) deck.cards count.toNat := by
  unfold select_cards
  rw [if_neg (by omega : ¬ count ≤ 0), if_neg (not_lt.mpr h2),
    if_neg (by omega : ¬ count ≤ 0), if_neg (not_lt.mpr h2)]
  exact ⟨rfl, rfl⟩

/-- Witness for C2 at a concrete valid input. -/
theorem select_cards_seed_formula_witness :
    ((0:Int) < 1 ∧ (1:Int) ≤ (sampleDeck.get_cards_count : Int)) ∧
    (select_cards 0 mtZero sampleDeck 1 (.int 5) (some 3) none
        = sample 0 (seedMT (5 + 3)) sampleDeck.cards (1:Int).toNat ∧
     select_cards 0 mtZero sampleDeck 1 (.int 5) none none
        = sample 0 (seedMT 5) sampleDeck.cards (1:Int).toNat) :=
  ⟨⟨by norm_num, by decide⟩,
   select_cards_seed_formula 0 mtZero sampleDeck 1 5 3 none (by norm_num) (by decide)⟩

/-- C3. Whenever `select_cards` over a duplicate-free deck returns a
card list, that list has length exactly `count` and its cards are
pairwise distinct (sampling without replacement). -/
theorem select_cards_len_nodup (fuel : Nat) (g : MTState) (deck : TarotDeck) (count : Int)
    (magic : MagicNumber) (age t : Option Int) (hnd : deck.cards.Nodup) :
    PyResult.okLenNodup (select_cards fuel g deck count magic age t) count := by
  unfold select_cards
  by_cases h1 : count ≤ 0
  · rw [if_pos h1]; exact trivial
  · rw [if_neg h1]
    by_cases h2 : (deck.get_cards_count : Int) < count
    · rw [if_pos h2]; exact trivial
    · rw [if_neg h2]
      cases magic with
      | nonInt => exact trivial
      | int m =>
        cases age with
        | none =>
          show PyResult.okLenNodup (sample fuel (seedMT m) deck.cards count.toNat) count
          cases hs : sample fuel (seedMT m) deck.cards count.toNat with
          | ok q =>
            have hq := sample_ok_len_nodup hnd hs
            exact ⟨by rw [hq.1]; exact Int.toNat_of_nonneg (by omega), hq.2⟩
          | valueError msg => exact trivial
          | typeError msg => exact trivial
          | outOfFuel => exact trivial
        | some a =>
          show PyResult.okLenNodup (sample fuel (seedMT (m + a)) deck.cards count.toNat) count
          cases hs : sample fuel (seedMT (m + a)) deck.cards count.toNat with
          | ok q =>
            have hq := sample_ok_len_nodup hnd hs
            exact ⟨by rw [hq.1]; exact Int.toNat_of_nonneg (by omega), hq.2⟩
          | valueError msg => exact trivial
          | typeError msg => exact trivial
          | outOfFuel => exact trivial

/-- Witness for C3 at a concrete duplicate-free deck. -/
theorem select_cards_len_nodup_witness :
    sampleDeck.cards.Nodup ∧
    PyResult.okLenNodup (select_cards 0 mtZero sampleDeck 1 (.int 7) none none) 1 :=
  ⟨by decide, select_cards_len_nodup 0 mtZero sampleDeck 1 (.int 7) none none (by decide)⟩

/-- A `sample` call whose requested size fits the population never
raises: it either completes or (in this model) runs out of fuel. -/
theorem sample_not_invalid {fuel : Nat} {s : MTState} {pop : List Card} {k : Nat}
    (hk : k ≤ pop.length) : (sample fuel s pop k).isInvalidArg = false := by
  unfold sample
  rw [if_neg (not_lt.mpr hk)]
  by_cases hss : pop.length ≤ sampleSetsize k
  · rw [if_pos hss]
    cases samplePoolLoop fuel k s pop pop.length with
    | none => rfl
    | some q => rfl
  · rw [if_neg hss]
    cases sampleSetLoop fuel pop pop.length k [] s with
    | none => rfl
    | some q => rfl

/-- C9. `select_cards` fails with an `InvalidArgument`-class error
(`ValueError`/`TypeError`) for `count <= 0`, for `count` above the deck
size, and for a non-integer magic number; under the preconditions
`1 <= count <= deck size` with an integer magic number it raises
neither. -/
theorem select_cards_bounds (fuel : Nat) (g : MTState) (deck : TarotDeck) (count : Int)
    (magic : MagicNumber) (age t : Option Int) (m : Int) :
    (count ≤ 0 → (select_cards fuel g deck count magic age t).isInvalidArg = true) ∧
    ((deck.get_cards_count : Int) < count →
      (select_cards fuel g deck count magic age t).isInvalidArg = true) ∧
    (select_cards fuel g deck count .nonInt age t).isInvalidArg = true ∧
    (0 < count → count ≤ (deck.get_cards_count : Int) →
      (select_cards fuel g deck count (.int m) age t).isInvalidArg = false) := by
  refine ⟨fun h => ?_, fun h => ?_, ?_, fun h1 h2 => ?_⟩
  · unfold select_cards
    rw [if_pos h]
    rfl
  · unfold select_cards
    by_cases h1 : count ≤ 0
    · rw [if_pos h1]; rfl
    · rw [if_neg h1, if_pos h]; rfl
  · unfold select_cards
    by_cases h1 : count ≤ 0
    · rw [if_pos h1]; rfl
    · rw [if_neg h1]
      by_cases h2 : (deck.get_cards_count : Int) < count
      · rw [if_pos h2]; rfl
      · rw [if_neg h2]; rfl
  · unfold select_cards
    rw [if_neg (by omega : ¬ count ≤ 0), if_neg (not_lt.mpr h2)]
    have hk : count.toNat ≤ deck.cards.length := Int.toNat_le.mpr h2
    cases age with
    | none => exact sample_not_invalid hk
    | some a => exact sample_not_invalid hk

/-- Witness for C9: each bound violated at a concrete input, and a
concrete valid input that raises nothing. -/
theorem select_cards_bounds_witness :
    (select_cards 5 mtZero sampleDeck 0 (.int 7) none none).isInvalidArg = true ∧
    (select_cards 5 mtZero sampleDeck 3 (.int 7) none none).isInvalidArg = true ∧
    (select_cards 5 mtZero sampleDeck 1 .nonInt none none).isInvalidArg = true ∧
    (select_cards 0 mtZero sampleDeck 1 (.int 7) none none).isInvalidArg = false :=
  ⟨(select_cards_bounds 5 mtZero sampleDeck 0 (.int 7) none none 7).1 (by norm_num),
   (select_cards_bounds 5 mtZero sampleDeck 3 (.int 7) none none 7).2.1 (by decide),
   (select_cards_bounds 5 mtZero sampleDeck 1 .nonInt none none 7).2.2.1,
   (select_cards_bounds 0 mtZero sampleDeck 1 (.int 7) none none 7).2.2.2 (by norm_num) (by decide)⟩

/-! ### String-primitive lemmas -/

/-- Dropping a while-prefix never lengthens a list. -/
theorem length_dropWhile_le (p : Char → Bool) (l : List Char) :
    (l.dropWhile p).length ≤ l.length :=
  ((List.dropWhile_suffix p).sublist).length_le

/-- Stripping never lengthens a string. -/
theorem pyStrip_length_le (l : List Char) : (pyStrip l).length ≤ l.length := by
  unfold pyStrip
  rw [List.length_reverse]
  exact le_trans (le_trans (length_dropWhile_le _ _) (by rw [List.length_reverse]))
    (length_dropWhile_le _ _)

/-- The head surviving `dropWhile` fails the predicate. -/
theorem head_dropWhile_false (p : Char → Bool) :
    ∀ (l : List Char) {x : Char} {xs : List Char}, l.dropWhile p = x :: xs → p x = false
  | [], _, _, h => by cases h
  | a :: t, x, xs, h => by
    by_cases hp : p a
    · rw [List.dropWhile_cons, if_pos hp] at h
      exact head_dropWhile_false p t h
    · rw [List.dropWhile_cons, if_neg hp] at h
      cases h
      exact Bool.eq_false_iff.mpr hp

/-- `str.strip()` is idempotent. -/
theorem pyStrip_idem (l : List Char) : pyStrip (pyStrip l) = pyStrip l := by
  unfold pyStrip
  have h1 : ((l.dropWhile isPySpace).reverse.dropWhile isPySpace).reverse.dropWhile isPySpace
      = ((l.dropWhile isPySpace).reverse.dropWhile isPySpace).reverse := by
    cases hBr : ((l.dropWhile isPySpace).reverse.dropWhile isPySpace).reverse with
    | nil => rfl
    | cons x xs =>
      have hsuf : (l.dropWhile isPySpace).reverse.dropWhile isPySpace
          <:+ (l.dropWhile isPySpace).reverse := List.dropWhile_suffix isPySpace
      have hpre := List.reverse_prefix.mpr hsuf
      rw [List.reverse_reverse] at hpre
      obtain ⟨t, ht⟩ := hpre
      rw [hBr] at ht
      have hx : isPySpace x = false :=
        @head_dropWhile_false isPySpace l x (xs ++ t) (by rw [← ht, List.cons_append])
      rw [List.dropWhile_cons, if_neg (by rw [hx]; exact Bool.false_ne_true)]
  rw [h1, List.reverse_reverse, List.dropWhile_idempotent]

/-! ### C5: transport error classification -/

/-- C5. With valid arguments, `send_request` raises an `OpenRouterError`
for a non-200 status, for an unparseable body, for a body without
choices, and for `None`/whitespace-only completion text; whenever it
returns normally, the returned text is already stripped and non-empty
(empty text is never returned as a valid answer). -/
theorem send_request_spec (messages : List ChatMessage) (model api_key : List Char)
    (hk : api_key ≠ []) (hm : model.contains '/' = true) (hmsg : messages ≠ []) :
    (∀ status body, status ≠ 200 →
        isTransportError (send_request messages model api_key ⟨status, body⟩) = true) ∧
    isTransportError (send_request messages model api_key ⟨200, .malformed⟩) = true ∧
    isTransportError (send_request messages model api_key ⟨200, .parsed []⟩) = true ∧
    (∀ rest,
        isTransportError (send_request messages model api_key ⟨200, .parsed (none :: rest)⟩)
          = true) ∧
    (∀ content rest, pyStrip content = [] →
        isTransportError
            (send_request messages model api_key ⟨200, .parsed (some content :: rest)⟩)
          = true) ∧
    (∀ resp text, send_request messages model api_key resp = .ok text →
        pyStrip text = text ∧ text ≠ []) := by
  have hm0 : ¬ (model = [] ∨ model.contains '/' = false) := by
    rintro (h | h)
    · rw [h] at hm
      cases hm
    · rw [h] at hm
      cases hm
  refine ⟨?_, ?_, ?_, ?_, ?_, ?_⟩
  · intro status body hst
    unfold send_request
    rw [if_neg hk, if_neg hm0, if_neg hmsg, if_pos hst]
    rfl
  · unfold send_request
    rw [if_neg hk, if_neg hm0, if_neg hmsg, if_neg (by simp)]
    rfl
  · unfold send_request
    rw [if_neg hk, if_neg hm0, if_neg hmsg, if_neg (by simp)]
    rfl
  · intro rest
    unfold send_request
    rw [if_neg hk, if_neg hm0, if_neg hmsg, if_neg (by simp)]
    rfl
  · intro content rest hstr
    unfold send_request
    rw [if_neg hk, if_neg hm0, if_neg hmsg, if_neg (by simp)]
    show isTransportError (if pyStrip content = [] then _ else _) = true
    rw [if_pos hstr]
    rfl
  · intro resp text h
    obtain ⟨status, body⟩ := resp
    unfold send_request at h
    rw [if_neg hk, if_neg hm0, if_neg hmsg] at h
    by_cases hst : status ≠ 200
    · rw [if_pos hst] at h
      cases h
    · rw [if_neg hst] at h
      cases body with
      | malformed => cases h
      | parsed choices =>
        cases choices with
        | nil => cases h
        | cons c rest =>
          cases c with
          | none => cases h
          | some content =>
            dsimp only at h
            by_cases hstr : pyStrip content = []
            · rw [if_pos hstr] at h
              cases h
            · rw [if_neg hstr] at h
              cases h
              exact ⟨pyStrip_idem content, hstr⟩

/-- Witness for C5 at concrete arguments: a non-200 status raises a
transport error, and a concrete successful call returns stripped
non-empty text. -/
theorem send_request_spec_witness :
    (pyStr "key1" ≠ [] ∧ (pyStr "deepseek/deepseek-chat").contains '/' = true ∧
      ([⟨"user", pyStr "hi"⟩] : List ChatMessage) ≠ []) ∧
    isTransportError (send_request [⟨"user", pyStr "hi"⟩] (pyStr "deepseek/deepseek-chat")
        (pyStr "key1") ⟨500, .malformed⟩) = true ∧
    (pyStrip (pyStr "hello") = pyStr "hello" ∧ pyStr "hello" ≠ []) :=
  ⟨⟨by decide, by decide, by decide⟩,
   (send_request_spec [⟨"user", pyStr "hi"⟩] (pyStr "deepseek/deepseek-chat") (pyStr "key1")
      (by decide) (by decide) (by decide)).1 500 .malformed (by decide),
   (send_request_spec [⟨"user", pyStr "hi"⟩] (pyStr "deepseek/deepseek-chat") (pyStr "key1")
      (by decide) (by decide) (by decide)).2.2.2.2.2 ⟨200, .parsed [some (pyStr " hello ")]⟩
      (pyStr "hello") rfl⟩

/-! ### C6: lazy system-prompt materialization -/

/-- C6. A `MessageContext` built with a (non-empty) task prompt holds
zero materialized messages until the first user message is added; after
the first `add_user_message` the history is exactly the system prompt
followed by that user message. -/
theorem message_context_lazy_system (tp : List Char) (htp : tp ≠ []) (u : List Char) :
    (MessageContext.new (some tp)).messages = [] ∧
    ((MessageContext.new (some tp)).add_user_message u).messages =
      [⟨"system", tp⟩, ⟨"user", u⟩] := by
  obtain ⟨c, cs, rfl⟩ : ∃ c cs, tp = c :: cs := by
    cases tp with
    | nil => exact absurd rfl htp
    | cons c cs => exact ⟨c, cs, rfl⟩
  exact ⟨rfl, rfl⟩

/-- Witness for C6 at a concrete prompt. -/
theorem message_context_lazy_system_witness :
    pyStr "Ты — опытный таролог" ≠ [] ∧
    (MessageContext.new (some (pyStr "Ты — опытный таролог"))).messages = [] ∧
    ((MessageContext.new (some (pyStr "Ты — опытный таролог"))).add_user_message
        (pyStr "Привет")).messages =
      [⟨"system", pyStr "Ты — опытный таролог"⟩, ⟨"user", pyStr "Привет"⟩] :=
  ⟨by decide,
   (message_context_lazy_system _ (by decide) (pyStr "Привет")).1,
   (message_context_lazy_system _ (by decide) (pyStr "Привет")).2⟩

/-! ### C10: the persona message's role -/

/-- C10 counterexample: after `initialize_session` the context holds
exactly one message and its role is `"user"`, not `"system"` — the
session passes the persona text to `add_user_message` over a context
whose `task_prompt` is `None`. -/
theorem initialize_session_role_counterexample :
    ((initialize_session (pyStr "Ты мудрый таролог.") (pyStr "01 January 2025") freshSession
        ⟨some (pyStr "Анна"), some 30⟩ ⟨some "three_cards", [], []⟩).context.messages.map
          ChatMessage.role) ≠ ["system"] := by
  decide

/-- C10 amended: after `initialize_session` on a fresh session, the
context holds exactly one message, whose text is the persona prompt
parameterized by the user's name and age (defaults `"Друг"`/25) and
whose role is `"user"`. -/
theorem initialize_session_persona_message (template today : List Char)
    (user : UserData) (spread : SpreadData) :
    (initialize_session template today freshSession user spread).context.messages =
      [⟨"user", get_system_persona template (user.name.getD (pyStr "Друг"))
          (user.age.getD 25) today⟩] :=
  rfl

/-! ### C4: stage sequencing and context growth -/

/-- C4 counterexample: one scripted non-terminal stage call (context
analysis, stage 6) grows the history of a fresh session by 2 — the
stage prompt and the model reply — not by 1. -/
theorem stage_growth_counterexample :
    ((generate_context_analysis (fun _ => Except.ok (pyStr "ANALYSIS TEXT")) (pyStr "PROMPT")
        freshSession).2.context.messages.length)
      ≠ freshSession.context.messages.length + 1 := by
  decide

/-- Appending a user message to a context without a task prompt appends
exactly one message. -/
theorem add_user_message_no_prompt (ctx : MessageContext) (hp : ctx.task_prompt = none)
    (t : List Char) :
    (ctx.add_user_message t).messages = ctx.messages ++ [⟨"user", t⟩] := by
  unfold MessageContext.add_user_message
  rw [hp]
  rfl

/-- C4 amended: with a transport stub returning fixed text, each
non-terminal stage call (questions generation without preliminary
answers, context analysis, synthesis) grows the context history by
exactly 2 — its prompt and the model reply — while the final stage
grows it by exactly 1 (its prompt only; the stage-8 reply is never
appended), and the session's returned text equals the cleaned stage-8
output. -/
theorem stage_sequencing (r4 r6 r7 r8 p4 p6 p7 p8 : List Char) (st : LLMSessionState)
    (hp : st.context.task_prompt = none) :
    (generate_psychological_analysis (fun _ => Except.ok r4) p4 none st).2.context.messages.length
      = st.context.messages.length + 2 ∧
    (generate_context_analysis (fun _ => Except.ok r6) p6 st).2.context.messages.length
      = st.context.messages.length + 2 ∧
    (generate_synthesis (fun _ => Except.ok r7) p7 st).2.context.messages.length
      = st.context.messages.length + 2 ∧
    (generate_final_interpretation (fun _ => Except.ok r8) p8 st).2.context.messages
      = st.context.messages ++ [⟨"user", p8⟩] ∧
    (generate_final_interpretation (fun _ => Except.ok r8) p8 st).1
      = some (clean_final_response st.spread_data st.user_data r8) := by
  refine ⟨?_, ?_, ?_, ?_, rfl⟩
  · show ((st.context.add_user_message
        (get_psychological_analysis_prompt p4 [])).add_assistant_message r4).messages.length
      = st.context.messages.length + 2
    rw [MessageContext.add_assistant_message, add_user_message_no_prompt st.context hp]
    simp
  · show ((st.context.add_user_message p6).add_assistant_message r6).messages.length
      = st.context.messages.length + 2
    rw [MessageContext.add_assistant_message, add_user_message_no_prompt st.context hp]
    simp
  · show ((st.context.add_user_message p7).add_assistant_message r7).messages.length
      = st.context.messages.length + 2
    rw [MessageContext.add_assistant_message, add_user_message_no_prompt st.context hp]
    simp
  · show (st.context.add_user_message p8).messages = st.context.messages ++ [⟨"user", p8⟩]
    exact add_user_message_no_prompt st.context hp p8

/-- Witness for C4's amended statement on a fresh session. -/
theorem stage_sequencing_witness :
    freshSession.context.task_prompt = none ∧
    (generate_context_analysis (fun _ => Except.ok (pyStr "A")) (pyStr "P")
        freshSession).2.context.messages.length
      = freshSession.context.messages.length + 2 :=
  ⟨rfl,
   (stage_sequencing (pyStr "A") (pyStr "A") (pyStr "A") (pyStr "A") (pyStr "P") (pyStr "P")
      (pyStr "P") (pyStr "P") freshSession rfl).2.1⟩

/-! ### C7: question validity and cap -/

/-- A question passing `_validate_question` is 10-500 characters long
and contains a question mark. -/
theorem validate_question_spec (q : List Char) (h : validate_question q = true) :
    10 ≤ q.length ∧ q.length ≤ 500 ∧ q.contains '?' = true := by
  unfold validate_question at h
  by_cases h1 : q = [] ∨ (pyStrip q).length < 10
  · rw [if_pos h1] at h
    cases h
  · rw [if_neg h1] at h
    by_cases h2 : 500 < q.length
    · rw [if_pos h2] at h
      cases h
    · rw [if_neg h2] at h
      push_neg at h1
      exact ⟨le_trans h1.2 (pyStrip_length_le q), not_lt.mp h2, h⟩

/-- `allValidQuestions` from element-wise validation. -/
theorem allValid_of_forall : ∀ (l : List (List Char)),
    (∀ q ∈ l, validate_question q = true) → allValidQuestions l
  | [], _ => trivial
  | q :: rest, h =>
    ⟨validate_question_spec q (h q (List.mem_cons_self _ _)),
     allValid_of_forall rest (fun x hx => h x (List.mem_cons_of_mem _ hx))⟩

/-- Every question way 1 emits passed validation. -/
theorem mem_way1_validate {r : List Char} {q : List Char} (hq : q ∈ extract_way1 r) :
    validate_question q = true := by
  unfold extract_way1 at hq
  cases hsb : searchBlock true (pyStr "[QUESTIONS_START]") (pyStr "[QUESTIONS_END]") r with
  | none =>
    rw [hsb] at hq
    cases hq
  | some g =>
    rw [hsb] at hq
    exact (List.mem_filter.mp hq).2

/-- Every question way 2 emits passed validation. -/
theorem mem_way2_validate {r : List Char} {q : List Char} (hq : q ∈ extract_way2 r) :
    validate_question q = true := by
  unfold extract_way2 at hq
  cases hsb : searchBlock false (pyStr "<QUESTIONS>") (pyStr "</QUESTIONS>") r with
  | none =>
    rw [hsb] at hq
    cases hq
  | some g =>
    rw [hsb] at hq
    obtain ⟨line, _, heq⟩ := List.mem_filterMap.mp hq
    cases hn : numberedLineQuestion (pyStrip line) with
    | none =>
      rw [hn] at heq
      cases heq
    | some q0 =>
      rw [hn] at heq
      dsimp only at heq
      by_cases hv : validate_question q0 = true
      · rw [if_pos hv] at heq
        cases heq
        exact hv
      · rw [if_neg hv] at heq
        cases heq

/-- Every question way 3 emits passed validation. -/
theorem mem_way3_validate {r : List Char} {q : List Char} (hq : q ∈ extract_way3 r) :
    validate_question q = true := by
  unfold extract_way3 at hq
  by_cases h1 : ¬ (markerFindall voprosMarkerLen (r.length + 1) r).isEmpty
  · rw [if_pos h1] at hq
    exact (List.mem_filter.mp hq).2
  · rw [if_neg h1] at hq
    by_cases h2 : ¬ (qmarkFindall numDotMarkerLen (r.length + 1) r).isEmpty
    · rw [if_pos h2] at hq
      exact (List.mem_filter.mp hq).2
    · rw [if_neg h2] at hq
      by_cases h3 : ¬ (qmarkFindall bulletMarkerLen (r.length + 1) r).isEmpty
      · rw [if_pos h3] at hq
        exact (List.mem_filter.mp hq).2
      · rw [if_neg h3] at hq
        cases hq

/-- Every question the pre-cap extractor emits passed validation. -/
theorem mem_uncapped_validate {r : List Char} {q : List Char} (hq : q ∈ extract_uncapped r) :
    validate_question q = true := by
  unfold extract_uncapped at hq
  by_cases h1 : ¬ (extract_way1 r).isEmpty
  · rw [if_pos h1] at hq
    exact mem_way1_validate hq
  · rw [if_neg h1] at hq
    by_cases h2 : ¬ (extract_way2 r).isEmpty
    · rw [if_pos h2] at hq
      exact mem_way2_validate hq
    · rw [if_neg h2] at hq
      exact mem_way3_validate hq

/-- C7. Every question the extractor returns is 10-500 characters long
and contains a question mark; the returned list never exceeds the
spread-type cap (single card 2, three cards 3, horseshoe 4, celtic
cross 7, default 5), and is a prefix of the uncapped extraction —
over-production is truncated in order, never an error. -/
theorem extract_questions_valid_capped (spread_type : String) (response : List Char) :
    allValidQuestions (extract_questions_from_response spread_type response) ∧
    (extract_questions_from_response spread_type response).length
      ≤ max_questions_limit spread_type ∧
    extract_questions_from_response spread_type response <+: extract_uncapped response := by
  have hpre : extract_questions_from_response spread_type response <+: extract_uncapped response := by
    unfold extract_questions_from_response validate_questions_count
    by_cases he : ¬ (extract_uncapped response).isEmpty
    · rw [if_pos he]
      by_cases hl : max_questions_limit spread_type < (extract_uncapped response).length
      · rw [if_pos hl]
        exact List.take_prefix _ _
      · rw [if_neg hl]
    · rw [if_neg he]
  have hlen : (extract_questions_from_response spread_type response).length
      ≤ max_questions_limit spread_type := by
    unfold extract_questions_from_response validate_questions_count
    by_cases he : ¬ (extract_uncapped response).isEmpty
    · rw [if_pos he]
      by_cases hl : max_questions_limit spread_type < (extract_uncapped response).length
      · rw [if_pos hl]
        exact List.length_take_le _ _
      · rw [if_neg hl]
        exact not_lt.mp hl
    · rw [if_neg he]
      have : extract_uncapped response = [] := by
        by_cases hc : extract_uncapped response = []
        · exact hc
        · exact absurd (by simp [hc]) he
      rw [this]
      exact Nat.zero_le _
  refine ⟨allValid_of_forall _ (fun q hq => mem_uncapped_validate (hpre.subset hq)), hlen, hpre⟩

/-! ### C8: final-text validation fallback -/

/-- C8. If the cleaned stage-8 candidate is shorter than 50 characters
or fails the word-diversity threshold, `_clean_final_response` returns
the templated fallback instead (validation failure never escapes as an
error), and for a non-empty drawn card list the fallback text contains
the first drawn card's name. -/
theorem clean_final_fallback (spread : SpreadData) (user : UserData) (response : List Char)
    (hbad : (clean_candidate response).length < 50 ∨
      word_ratio_low (clean_candidate response) = true) :
    clean_final_response spread user response = get_fallback_interpretation spread user ∧
    (∀ c0 cs, spread.cards = c0 :: cs →
      c0.name.data <:+: get_fallback_interpretation spread user) := by
  constructor
  · unfold clean_final_response
    have hv : validate_interpretation (clean_candidate response) = false := by
      unfold validate_interpretation
      rcases hbad with h | h
      · rw [if_pos (Or.inr (lt_of_le_of_lt (pyStrip_length_le _) h))]
      · by_cases h1 : clean_candidate response = [] ∨
            (pyStrip (clean_candidate response)).length < 50
        · rw [if_pos h1]
        · rw [if_neg h1, if_pos h]
    simp [hv]
  · intro c0 cs hc
    have hline : c0.name.data <:+: fallbackCardLine c0 := ⟨pyStr "🎴 **", _, rfl⟩
    refine hline.trans ?_
    unfold get_fallback_interpretation
    rw [hc]
    rw [show (c0 :: cs).isEmpty = false from rfl]
    show fallbackCardLine c0 <:+:
      pyStr "🔮 **" ++ user.name.getD (pyStr "Друг") ++ pyStr ", ваш "
        ++ (spread.spread_type.getD "расклад").data ++ pyStr " готов!**\n\n"
        ++ (fallbackCardLine c0 :: (cs.take 2).map fallbackCardLine).flatten
        ++ pyStr "\n✨ Карты показывают период роста и новых возможностей. Доверьтесь интуиции и будьте открыты переменам!"
    rw [List.flatten_cons]
    refine ⟨pyStr "🔮 **" ++ user.name.getD (pyStr "Друг") ++ pyStr ", ваш "
        ++ (spread.spread_type.getD "расклад").data ++ pyStr " готов!**\n\n",
      ((cs.take 2).map fallbackCardLine).flatten
        ++ pyStr "\n✨ Карты показывают период роста и новых возможностей. Доверьтесь интуиции и будьте открыты переменам!", ?_⟩
    simp [List.append_assoc]

/-- A concrete spread for the C8 witness: the sample deck's two cards
drawn for a three-card layout. -/
def fallbackSpread : SpreadData :=
  ⟨some "three_cards", [foolCard, magicianCard], []⟩

/-- Witness for C8 at a concrete degenerate model reply. -/
theorem clean_final_fallback_witness :
    ((clean_candidate (pyStr "тьма")).length < 50 ∨
      word_ratio_low (clean_candidate (pyStr "тьма")) = true) ∧
    clean_final_response fallbackSpread ⟨none, none⟩ (pyStr "тьма")
      = get_fallback_interpretation fallbackSpread ⟨none, none⟩ ∧
    foolCard.name.data <:+: get_fallback_interpretation fallbackSpread ⟨none, none⟩ :=
  ⟨Or.inl (by decide),
   (clean_final_fallback fallbackSpread ⟨none, none⟩ (pyStr "тьма") (Or.inl (by decide))).1,
   (clean_final_fallback fallbackSpread ⟨none, none⟩ (pyStr "тьма") (Or.inl (by decide))).2
     foolCard [magicianCard] rfl⟩

end Tarot
